import Mathlib

/-!
Shallow embedding of the Monkey-language front end
(lexical scanner in `src/lexer/lexer.rs`, parser in `src/parser/mod.rs`,
AST in `src/ast/mod.rs`).  The Rust code works on the raw bytes of the
input string, so source text is modelled as a `List Nat` of byte values;
the cached current byte `ch : u8` becomes a `Nat` with the same 0
end-of-input sentinel.  Rust panics (`unreachable!`, `unwrap`) are
modelled as an explicit `crash` outcome and the parser's while-loops,
which the source gives no termination argument for, are step-indexed by
an explicit fuel argument whose exhaustion is the distinct outcome
`diverge`.
-/

/-- Byte string of an ASCII Lean string literal, used to state concrete
inputs and token payloads. -/
def byteStr (s : String) : List Nat := s.data.map Char.toNat

/-- Token kind from `src/lexer/lexer.rs` (`enum Token`).  The two
payload-carrying kinds hold the captured source bytes. -/
inductive Token where
  | Ident : List Nat → Token
  | Int : List Nat → Token
  | Assign : Token
  | Plus : Token
  | Minus : Token
  | Bang : Token
  | Asterisk : Token
  | Slash : Token
  | LessThan : Token
  | GreaterThan : Token
  | Equal : Token
  | NotEqual : Token
  | Comma : Token
  | Semicolon : Token
  | LParen : Token
  | RParen : Token
  | LBrace : Token
  | RBrace : Token
  | Function : Token
  | Let : Token
  | True : Token
  | False : Token
  | If : Token
  | Else : Token
  | Return : Token
  | Illegal : Token
  | EOF : Token
deriving DecidableEq, Repr

/-- Scanner state from `src/lexer/lexer.rs` (`struct Lexer`): the input
byte buffer, the current and next read positions, and the cached byte
under examination (0 = end-of-input sentinel). -/
structure Lexer where
  input : List Nat
  position : Nat
  read_position : Nat
  ch : Nat
deriving DecidableEq, Repr

/-- Rust `u8::is_ascii_whitespace`: space, tab, line feed, form feed,
carriage return. -/
def is_ascii_whitespace (c : Nat) : Bool :=
  c == 32 || c == 9 || c == 10 || c == 12 || c == 13

/-- Rust `u8::is_ascii_alphabetic`. -/
def is_ascii_alphabetic (c : Nat) : Bool :=
  decide (65 ≤ c ∧ c ≤ 90) || decide (97 ≤ c ∧ c ≤ 122)

/-- Rust `u8::is_ascii_digit`. -/
def is_ascii_digit (c : Nat) : Bool :=
  decide (48 ≤ c ∧ c ≤ 57)

/-- `Lexer::read_char`: load the byte at `read_position` (0 when past the
end), move `position` there, and advance `read_position`. -/
def Lexer.read_char (l : Lexer) : Lexer :=
  { input := l.input
    ch := if l.input.length ≤ l.read_position then 0 else l.input.getD l.read_position 0
    position := l.read_position
    read_position := l.read_position + 1 }

/-- `Lexer::new`: start from the zeroed cursor and read the first byte. -/
def Lexer.new (source : List Nat) : Lexer :=
  Lexer.read_char { input := source, position := 0, read_position := 0, ch := 0 }

/-- `Lexer::peek_char`: the byte at `read_position` without consuming it. -/
def Lexer.peek_char (l : Lexer) : Nat :=
  if l.input.length ≤ l.read_position then 0 else l.input.getD l.read_position 0

/-- Step-indexed body of the `while self.ch.is_ascii_whitespace()` loop of
`Lexer::skip_whitespace`. -/
def skip_whitespace_fuel : Nat → Lexer → Lexer
  | 0, l => l
  | n + 1, l =>
    if is_ascii_whitespace l.ch then skip_whitespace_fuel n l.read_char else l

/-- `Lexer::skip_whitespace`.  From any state reachable from `Lexer.new`
the loop advances `position` while it runs, so `input.length + 1` steps of
fuel always suffice. -/
def Lexer.skip_whitespace (l : Lexer) : Lexer :=
  skip_whitespace_fuel (l.input.length + 1) l

/-- Step-indexed body of the character-consuming loop of
`Lexer::read_ident` (`while self.ch.is_ascii_alphabetic() || self.ch == b'_'`). -/
def read_ident_fuel : Nat → Lexer → Lexer
  | 0, l => l
  | n + 1, l =>
    if is_ascii_alphabetic l.ch || l.ch == 95 then read_ident_fuel n l.read_char else l

/-- `Lexer::read_ident`: consume the maximal run of letters and
underscores and return the byte slice `input[pos..position]` together
with the advanced scanner. -/
def Lexer.read_ident (l : Lexer) : List Nat × Lexer :=
  let l2 := read_ident_fuel (l.input.length + 1) l
  ((l.input.drop l.position).take (l2.position - l.position), l2)

/-- Step-indexed body of the digit-consuming loop of `Lexer::read_number`. -/
def read_number_fuel : Nat → Lexer → Lexer
  | 0, l => l
  | n + 1, l =>
    if is_ascii_digit l.ch then read_number_fuel n l.read_char else l

/-- `Lexer::read_number`: consume the maximal digit run and return the
byte slice `input[pos..position]` with the advanced scanner. -/
def Lexer.read_number (l : Lexer) : List Nat × Lexer :=
  let l2 := read_number_fuel (l.input.length + 1) l
  ((l.input.drop l.position).take (l2.position - l.position), l2)

/-- `Lexer::lookup_ident`: the fixed keyword table. -/
def lookup_ident (ident : List Nat) : Token :=
  if ident = byteStr "fn" then Token.Function
  else if ident = byteStr "let" then Token.Let
  else if ident = byteStr "true" then Token.True
  else if ident = byteStr "false" then Token.False
  else if ident = byteStr "if" then Token.If
  else if ident = byteStr "else" then Token.Else
  else if ident = byteStr "return" then Token.Return
  else Token.Ident ident

/-- `Lexer::next_token`.  The `match self.ch` arms are rendered in source
order; the identifier and number arms return early without the trailing
`read_char`, every other recognized arm performs it, and the
`_ => unreachable!(...)` arm — a process abort in the source — is
modelled as `none`. -/
def Lexer.next_token (l0 : Lexer) : Option (Token × Lexer) :=
  let l := l0.skip_whitespace
  if is_ascii_alphabetic l.ch || l.ch == 95 then
    let (ident, l2) := l.read_ident
    some (lookup_ident ident, l2)
  else if is_ascii_digit l.ch then
    let (num, l2) := l.read_number
    some (Token.Int num, l2)
  else if l.ch == 61 then
    if l.peek_char == 61 then some (Token.Equal, l.read_char.read_char)
    else some (Token.Assign, l.read_char)
  else if l.ch == 43 then some (Token.Plus, l.read_char)
  else if l.ch == 45 then some (Token.Minus, l.read_char)
  else if l.ch == 33 then
    if l.peek_char == 61 then some (Token.NotEqual, l.read_char.read_char)
    else some (Token.Bang, l.read_char)
  else if l.ch == 42 then some (Token.Asterisk, l.read_char)
  else if l.ch == 47 then some (Token.Slash, l.read_char)
  else if l.ch == 60 then some (Token.LessThan, l.read_char)
  else if l.ch == 62 then some (Token.GreaterThan, l.read_char)
  else if l.ch == 44 then some (Token.Comma, l.read_char)
  else if l.ch == 59 then some (Token.Semicolon, l.read_char)
  else if l.ch == 40 then some (Token.LParen, l.read_char)
  else if l.ch == 41 then some (Token.RParen, l.read_char)
  else if l.ch == 123 then some (Token.LBrace, l.read_char)
  else if l.ch == 125 then some (Token.RBrace, l.read_char)
  else if l.ch == 0 then some (Token.EOF, l.read_char)
  else none

/-- Literal-text projection of a token.  Modelled from the spec: the
`token_literal()` method used by `src/parser/mod.rs` and `src/ast/mod.rs`
is not among the given sources; §4.2 describes it as "a pure function
from token kind to its canonical surface text", total over every kind
including the sentinels. -/
def token_literal : Token → List Nat
  | Token.Ident s => s
  | Token.Int s => s
  | Token.Assign => byteStr "="
  | Token.Plus => byteStr "+"
  | Token.Minus => byteStr "-"
  | Token.Bang => byteStr "!"
  | Token.Asterisk => byteStr "*"
  | Token.Slash => byteStr "/"
  | Token.LessThan => byteStr "<"
  | Token.GreaterThan => byteStr ">"
  | Token.Equal => byteStr "=="
  | Token.NotEqual => byteStr "!="
  | Token.Comma => byteStr ","
  | Token.Semicolon => byteStr ";"
  | Token.LParen => byteStr "("
  | Token.RParen => byteStr ")"
  | Token.LBrace => byteStr "\x7b"
  | Token.RBrace => byteStr "\x7d"
  | Token.Function => byteStr "fn"
  | Token.Let => byteStr "let"
  | Token.True => byteStr "true"
  | Token.False => byteStr "false"
  | Token.If => byteStr "if"
  | Token.Else => byteStr "else"
  | Token.Return => byteStr "return"
  | Token.Illegal => byteStr "ILLEGAL"
  | Token.EOF => byteStr ""

/-- `struct Identifier` from `src/ast/mod.rs`. -/
structure Identifier where
  token : Token
  value : List Nat
deriving DecidableEq, Repr

/-- `enum Expression` from `src/ast/mod.rs`: currently closed to the
identifier form. -/
inductive Expression where
  | Identifier : Identifier → Expression
deriving DecidableEq, Repr

/-- `struct LetStatement` from `src/ast/mod.rs`. -/
structure LetStatement where
  token : Token
  name : Identifier
  value : Expression
deriving DecidableEq, Repr

/-- `struct ReturnStatement` from `src/ast/mod.rs`. -/
structure ReturnStatement where
  token : Token
  return_value : Expression
deriving DecidableEq, Repr

/-- Expression-statement node.  Modelled from the spec: `src/parser/mod.rs`
constructs `ExpressionStatement { token, expression }` but the struct
itself is absent from the given `src/ast` sources (§3 lists
`ExpressionStatement{value: Expression}` as a statement form, and the
parser additionally stores its current token in the node). -/
structure ExpressionStatement where
  token : Token
  expression : Expression
deriving DecidableEq, Repr

/-- `enum Statement`.  The `Let` and `Return` variants are in
`src/ast/mod.rs`; the `Expression` variant is modelled from the spec
(§3), since the given `src/ast/mod.rs` predates the expression-statement
support that `src/parser/mod.rs` requires. -/
inductive Statement where
  | Let : LetStatement → Statement
  | Return : ReturnStatement → Statement
  | Expression : ExpressionStatement → Statement
deriving DecidableEq, Repr

/-- `struct Program` from `src/ast/mod.rs`. -/
structure Program where
  statements : List Statement
deriving DecidableEq, Repr

/-- `impl fmt::Display for Identifier`: writes `value`. -/
def Identifier.render (i : Identifier) : List Nat := i.value

/-- `impl fmt::Display for Expression`: delegates to the identifier. -/
def Expression.render : Expression → List Nat
  | Expression.Identifier i => i.render

/-- Rendering of `LetStatement` (`write!(f, "let {} = {};", ...)`). -/
def LetStatement.render (s : LetStatement) : List Nat :=
  byteStr "let " ++ s.name.render ++ byteStr " = " ++ s.value.render ++ byteStr ";"

/-- Rendering of `ReturnStatement` (`write!(f, "return {};", ...)`). -/
def ReturnStatement.render (s : ReturnStatement) : List Nat :=
  byteStr "return " ++ s.return_value.render ++ byteStr ";"

/-- Rendering of `ExpressionStatement`.  Modelled from the spec: the
Display impl is absent from the given sources; per §8 an expression
statement renders as its expression's text alone. -/
def ExpressionStatement.render (s : ExpressionStatement) : List Nat :=
  s.expression.render

/-- `impl fmt::Display for Statement`: dispatch on the variant. -/
def Statement.render : Statement → List Nat
  | Statement.Let s => s.render
  | Statement.Return s => s.render
  | Statement.Expression s => s.render

/-- `impl fmt::Display for Program`: concatenation of the statements'
renderings. -/
def Program.render (p : Program) : List Nat :=
  (p.statements.map Statement.render).flatten

/-- `enum ParserError` from `src/parser/mod.rs`. -/
inductive ParserError where
  | UnexpectedToken : List Nat → List Nat → ParserError
  | MissingIdentifier : Token → ParserError
  | PrefixExpressionNotImplemented : Token → ParserError
deriving DecidableEq, Repr

/-- `enum OperatorPrecedence` from `src/parser/mod.rs` (the `Prefix`
level is spelled `PrefixOp` here to fit this development's naming
conventions). -/
inductive OperatorPrecedence where
  | Lowest : OperatorPrecedence
  | Equals : OperatorPrecedence
  | LessGreater : OperatorPrecedence
  | Sum : OperatorPrecedence
  | Product : OperatorPrecedence
  | PrefixOp : OperatorPrecedence
  | Call : OperatorPrecedence
deriving DecidableEq, Repr

/-- Outcome of running a fallible parser operation: a value, a
`ParserError` propagated through Rust's `?`, a Rust panic (`crash`), or
exhaustion of the step-index fuel (`diverge`, the marker for a source
loop that has not terminated within the given budget). -/
inductive PRes (α : Type) where
  | ok : α → PRes α
  | err : ParserError → PRes α
  | crash : PRes α
  | diverge : PRes α
deriving DecidableEq, Repr

/-- Sequencing of fallible parser operations: Rust's `?` operator. -/
def PRes.bind {α β : Type} : PRes α → (α → PRes β) → PRes β
  | PRes.ok a, f => f a
  | PRes.err e, _ => PRes.err e
  | PRes.crash, _ => PRes.crash
  | PRes.diverge, _ => PRes.diverge

/-- A Rust call that can only panic (never return `Err`), such as the
lexer, lifted into `PRes`. -/
def liftOpt {α : Type} : Option α → PRes α
  | none => PRes.crash
  | some a => PRes.ok a

/-- `struct Parser` from `src/parser/mod.rs`: the owned lexer plus the
current/peek token pair. -/
structure Parser where
  lexer : Lexer
  current_token : Token
  peek_token : Token
deriving DecidableEq, Repr

/-- `Parser::next_token`: shift peek into current and pull one token from
the lexer (whose `unreachable!` panic propagates). -/
def Parser.next_token (p : Parser) : Option Parser :=
  match p.lexer.next_token with
  | none => none
  | some (t, lx) =>
    some { lexer := lx, current_token := p.peek_token, peek_token := t }

/-- `Parser::new`: both buffered tokens start as `Illegal` and are then
filled by two advances, whose `unwrap()` panics on a lexer panic. -/
def Parser.new (lx : Lexer) : Option Parser :=
  match Parser.next_token { lexer := lx, current_token := Token.Illegal, peek_token := Token.Illegal } with
  | none => none
  | some p1 => p1.next_token

/-- `Parser::current_token_is`. -/
def Parser.current_token_is (p : Parser) (t : Token) : Bool :=
  p.current_token == t

/-- `Parser::peek_token_is`. -/
def Parser.peek_token_is (p : Parser) (t : Token) : Bool :=
  p.peek_token == t

/-- `Parser::expect_peek`: advance past an expected token or report
`UnexpectedToken` with the wanted and found literals. -/
def expect_peek (p : Parser) (t : Token) : PRes Parser :=
  if p.peek_token_is t then liftOpt p.next_token
  else PRes.err (ParserError.UnexpectedToken (token_literal t) (token_literal p.peek_token))

/-- `Parser::read_identifier`. -/
def read_identifier (p : Parser) : PRes (List Nat) :=
  match p.current_token with
  | Token.Ident s => PRes.ok s
  | _ => PRes.err (ParserError.MissingIdentifier p.current_token)

/-- Step-indexed body of the `while !self.current_token_is(Token::Semicolon)`
loop shared by `parse_let_statement` and `parse_return_statement`. -/
def skip_to_semicolon : Nat → Parser → PRes Parser
  | 0, _ => PRes.diverge
  | n + 1, p =>
    if p.current_token_is Token.Semicolon then PRes.ok p
    else PRes.bind (liftOpt p.next_token) (fun p2 => skip_to_semicolon n p2)

/-- `Parser::parse_identifier`: an identifier expression whose value is
the current token's literal text. -/
def parse_identifier (p : Parser) : Expression :=
  Expression.Identifier
    { token := p.current_token, value := token_literal p.current_token }

/-- `Parser::parse_prefix` (named with the `_expression` suffix here):
only the identifier prefix position is wired; every other current token
reports `PrefixExpressionNotImplemented`. -/
def parse_prefix_expression (p : Parser) : PRes Expression :=
  match p.current_token with
  | Token.Ident s => PRes.ok (parse_identifier p)
  | _ => PRes.err (ParserError.PrefixExpressionNotImplemented p.current_token)

/-- `Parser::parse_expression`: resolves the prefix handler; the
precedence argument is accepted but not yet consulted (no infix loop is
wired in the source). -/
def parse_expression (p : Parser) (precedence : OperatorPrecedence) : PRes Expression :=
  parse_prefix_expression p

/-- `Parser::parse_let_statement`: advance, read the bound identifier,
require `=`, advance, skip to the `;`, and build the node with the
placeholder value expression (the `TODO` in the source skips the real
expression). -/
def parse_let_statement (n : Nat) (p : Parser) : PRes (LetStatement × Parser) :=
  PRes.bind (liftOpt p.next_token) fun p1 =>
  PRes.bind (read_identifier p1) fun identifier =>
  PRes.bind (expect_peek p1 Token.Assign) fun p2 =>
  PRes.bind (liftOpt p2.next_token) fun p3 =>
  PRes.bind (skip_to_semicolon n p3) fun p4 =>
  PRes.ok
    ({ token := Token.Let
       name := { token := Token.Ident identifier, value := identifier }
       value := Expression.Identifier { token := Token.Int (byteStr "5"), value := byteStr "5" } },
     p4)

/-- `Parser::parse_return_statement`: skip to the `;` and build the node
with the placeholder return value. -/
def parse_return_statement (n : Nat) (p : Parser) : PRes (ReturnStatement × Parser) :=
  PRes.bind (skip_to_semicolon n p) fun p1 =>
  PRes.ok
    ({ token := Token.Return
       return_value :=
         Expression.Identifier { token := Token.Int (byteStr "5"), value := byteStr "5" } },
     p1)

/-- `Parser::parse_expression_statement`: parse one expression at
`Lowest`, optionally consume a trailing `;`, and record the (possibly
advanced) current token in the node. -/
def parse_expression_statement (p : Parser) : PRes (ExpressionStatement × Parser) :=
  PRes.bind (parse_expression p OperatorPrecedence.Lowest) fun expression =>
  if p.peek_token_is Token.Semicolon then
    PRes.bind (liftOpt p.next_token) fun p2 =>
      PRes.ok ({ token := p2.current_token, expression := expression }, p2)
  else
    PRes.ok ({ token := p.current_token, expression := expression }, p)

/-- `Parser::parse_statement`: dispatch on the current token. -/
def parse_statement (n : Nat) (p : Parser) : PRes (Statement × Parser) :=
  match p.current_token with
  | Token.Let =>
    PRes.bind (parse_let_statement n p) fun sp => PRes.ok (Statement.Let sp.1, sp.2)
  | Token.Return =>
    PRes.bind (parse_return_statement n p) fun sp => PRes.ok (Statement.Return sp.1, sp.2)
  | _ =>
    PRes.bind (parse_expression_statement p) fun sp =>
      PRes.ok (Statement.Expression sp.1, sp.2)

/-- Step-indexed body of the `while self.current_token != Token::EOF`
loop of `Parser::parse_program`, with the statements accumulated so far. -/
def parse_program_loop : Nat → Parser → List Statement → PRes Program
  | 0, _, _ => PRes.diverge
  | n + 1, p, acc =>
    if p.current_token = Token.EOF then PRes.ok { statements := acc }
    else
      PRes.bind (parse_statement n p) fun sp =>
      PRes.bind (liftOpt sp.2.next_token) fun p2 =>
      parse_program_loop n p2 (acc ++ [sp.1])

/-- `Parser::parse_program` with a step budget `n`. -/
def parse_program (n : Nat) (p : Parser) : PRes Program :=
  parse_program_loop n p []

/-- Whole pipeline on a source byte string: build the lexer, build the
parser (whose constructor can panic), and parse. -/
def parse_input (n : Nat) (src : List Nat) : PRes Program :=
  match Parser.new (Lexer.new src) with
  | none => PRes.crash
  | some p => parse_program n p

/-- The scanner's cursor has run off the end of the input: the cached
byte is the 0 sentinel and the next read position is past the buffer.
`Lexer.new` over an empty input satisfies this, and `Lexer.read_char`
preserves it. -/
def at_end (l : Lexer) : Prop :=
  l.ch = 0 ∧ l.input.length ≤ l.read_position

/-- A statement's skipped-over value slot holds the fixed placeholder:
for a `let` the stored value, and for a `return` the stored return
value, is the `Identifier` expression with token `Int("5")` and text
`"5"`. -/
def has_placeholder_value (s : Statement) : Prop :=
  (∀ ls, s = Statement.Let ls →
    ls.value = Expression.Identifier
      { token := Token.Int (byteStr "5"), value := byteStr "5" }) ∧
  (∀ rs, s = Statement.Return rs →
    rs.return_value = Expression.Identifier
      { token := Token.Int (byteStr "5"), value := byteStr "5" })

/-- When the cached byte is not whitespace, `skip_whitespace` leaves the
scanner untouched. -/
theorem skip_whitespace_noop (l : Lexer) (h : is_ascii_whitespace l.ch = false) :
    l.skip_whitespace = l := by
  simp [Lexer.skip_whitespace, skip_whitespace_fuel, h]

/-- Past the end of the input, one `next_token` call yields `EOF` and
moves to a state that is still past the end. -/
theorem next_token_at_end (l : Lexer) (h : at_end l) :
    l.next_token = some (Token.EOF, l.read_char) ∧ at_end l.read_char := by
  obtain ⟨hch, hpos⟩ := h
  constructor
  · have hs : l.skip_whitespace = l := skip_whitespace_noop l (by rw [hch]; decide)
    simp [Lexer.next_token, hs, hch, is_ascii_alphabetic, is_ascii_digit]
  · refine ⟨?_, ?_⟩
    · simp [Lexer.read_char, hpos]
    · simp [Lexer.read_char]
      omega

/-- C1: the claim says `next_token` returns a token for any byte under
the cursor, surfacing unrecognized bytes as `Illegal` and never
aborting.  The code instead reaches the `unreachable!` arm — a process
abort, modelled as `none` — on the unrecognized byte `'@'` at the very
first cursor position, so the claim fails on the code (the spec itself
flags this abort as a defect of the implementation). -/
theorem c1_unrecognized_byte_panics :
    (Lexer.new (byteStr "@")).next_token = none := by
  rfl

/-- C9: once the scanner's cursor is past the end of the input
(`at_end`), `next_token` returns `EOF` — a normal token, not a panic —
and the successor state is again past the end, so every subsequent call
returns `EOF` as well: the token stream is idempotently terminal. -/
theorem c9_end_of_input_idempotent (l : Lexer) (h : at_end l) :
    l.next_token = some (Token.EOF, l.read_char) ∧ at_end l.read_char :=
  next_token_at_end l h

/-- Witness for C9 at the concrete scanner over the empty input. -/
theorem c9_end_of_input_idempotent_witness :
    (Lexer.new (byteStr "")).next_token =
        some (Token.EOF, (Lexer.new (byteStr "")).read_char) ∧
      at_end (Lexer.new (byteStr "")).read_char :=
  c9_end_of_input_idempotent (Lexer.new (byteStr "")) ⟨rfl, by decide⟩

/-- C6: at every scanner state, `"=="` scans as the single token `Equal`
and `"!="` as the single token `NotEqual` (consuming both bytes), while
`'='` or `'!'` not followed by `'='` scans as `Assign` or `Bang`, where
the following byte was only inspected through `peek_char` and the
resulting state `l.read_char` has consumed just the one byte. -/
theorem c6_two_char_operator_tokens (l : Lexer) :
    (l.ch = 61 → l.peek_char = 61 →
      l.next_token = some (Token.Equal, l.read_char.read_char)) ∧
    (l.ch = 61 → l.peek_char ≠ 61 →
      l.next_token = some (Token.Assign, l.read_char)) ∧
    (l.ch = 33 → l.peek_char = 61 →
      l.next_token = some (Token.NotEqual, l.read_char.read_char)) ∧
    (l.ch = 33 → l.peek_char ≠ 61 →
      l.next_token = some (Token.Bang, l.read_char)) := by
  refine ⟨?_, ?_, ?_, ?_⟩ <;> intro hch hpk <;>
    have hs : l.skip_whitespace = l := skip_whitespace_noop l (by rw [hch]; decide) <;>
    simp [Lexer.next_token, hs, hch, hpk, is_ascii_alphabetic, is_ascii_digit, beq_iff_eq]

/-- Witness for C6 at four concrete scanner states, one per branch. -/
theorem c6_two_char_operator_tokens_witness :
    (Lexer.new (byteStr "==")).next_token =
        some (Token.Equal, (Lexer.new (byteStr "==")).read_char.read_char) ∧
      (Lexer.new (byteStr "=x")).next_token =
        some (Token.Assign, (Lexer.new (byteStr "=x")).read_char) ∧
      (Lexer.new (byteStr "!=")).next_token =
        some (Token.NotEqual, (Lexer.new (byteStr "!=")).read_char.read_char) ∧
      (Lexer.new (byteStr "!x")).next_token =
        some (Token.Bang, (Lexer.new (byteStr "!x")).read_char) :=
  ⟨(c6_two_char_operator_tokens (Lexer.new (byteStr "=="))).1 rfl rfl,
   (c6_two_char_operator_tokens (Lexer.new (byteStr "=x"))).2.1 rfl (by decide),
   (c6_two_char_operator_tokens (Lexer.new (byteStr "!="))).2.2.1 rfl rfl,
   (c6_two_char_operator_tokens (Lexer.new (byteStr "!x"))).2.2.2 rfl (by decide)⟩

/-- Once the current buffered token is not `;`, the peek token is `EOF`
and the lexer is past the end of the input, the skip-to-semicolon loop
of `parse_let_statement`/`parse_return_statement` never finds its
semicolon: it exhausts every fuel budget. -/
theorem skip_to_semicolon_diverges :
    ∀ (n : Nat) (p : Parser), p.current_token ≠ Token.Semicolon →
      p.peek_token = Token.EOF → at_end p.lexer →
      skip_to_semicolon n p = PRes.diverge := by
  intro n
  induction n with
  | zero => intro p _ _ _; rfl
  | succ m ih =>
    intro p hcur hpeek hend
    have hnt := next_token_at_end p.lexer hend
    have hne : p.current_token_is Token.Semicolon = false := by
      simp [Parser.current_token_is, hcur]
    have hstep : p.next_token =
        some { lexer := p.lexer.read_char, current_token := p.peek_token,
               peek_token := Token.EOF } := by
      simp [Parser.next_token, hnt.1]
    simp only [skip_to_semicolon, hne, Bool.false_eq_true, if_false, hstep, liftOpt, PRes.bind]
    exact ih _ (by simp [hpeek]) rfl hnt.2

/-- C2: the claim says `parse_program` terminates on every finite input,
in particular on a `let` statement whose terminating semicolon is
missing.  On the input `"let x = 5"` (no semicolon) the code instead
spins forever in the skip-to-semicolon loop — the lexer keeps returning
`EOF`, which is never `;` — so no step budget whatsoever lets the parse
complete or error. -/
theorem c2_missing_semicolon_nonterminating (n : Nat) :
    parse_input n (byteStr "let x = 5") = PRes.diverge := by
  cases n with
  | zero => rfl
  | succ m =>
    have hskip : skip_to_semicolon m
        { lexer := { input := byteStr "let x = 5", position := 10, read_position := 11, ch := 0 },
          current_token := Token.Int (byteStr "5"), peek_token := Token.EOF } = PRes.diverge :=
      skip_to_semicolon_diverges m _ (by decide) rfl ⟨rfl, by decide⟩
    have hshape : parse_input (m + 1) (byteStr "let x = 5") =
        PRes.bind
          (PRes.bind
            (PRes.bind
              (skip_to_semicolon m
                { lexer := { input := byteStr "let x = 5", position := 10, read_position := 11, ch := 0 },
                  current_token := Token.Int (byteStr "5"), peek_token := Token.EOF })
              (fun p4 => PRes.ok
                (({ token := Token.Let,
                    name := { token := Token.Ident (byteStr "x"), value := byteStr "x" },
                    value := Expression.Identifier
                      { token := Token.Int (byteStr "5"), value := byteStr "5" } } : LetStatement),
                 p4)))
            (fun sp => PRes.ok (Statement.Let sp.1, sp.2)))
          (fun sp =>
            PRes.bind (liftOpt sp.2.next_token) fun p2 =>
              parse_program_loop m p2 [sp.1]) := rfl
    rw [hshape, hskip]
    rfl

@[simp]
theorem PRes.bind_ok {α β : Type} (a : α) (f : α → PRes β) :
    PRes.bind (PRes.ok a) f = f a := rfl

@[simp]
theorem PRes.bind_err {α β : Type} (e : ParserError) (f : α → PRes β) :
    PRes.bind (PRes.err e) f = PRes.err e := rfl

@[simp]
theorem PRes.bind_crash {α β : Type} (f : α → PRes β) :
    PRes.bind (PRes.crash : PRes α) f = PRes.crash := rfl

@[simp]
theorem PRes.bind_diverge {α β : Type} (f : α → PRes β) :
    PRes.bind (PRes.diverge : PRes α) f = PRes.diverge := rfl

/-- Sequencing succeeds exactly when both stages succeed. -/
theorem PRes.bind_eq_ok {α β : Type} {x : PRes α} {f : α → PRes β} {b : β}
    (h : PRes.bind x f = PRes.ok b) : ∃ a, x = PRes.ok a ∧ f a = PRes.ok b := by
  cases x with
  | ok a => exact ⟨a, rfl, h⟩
  | err e => simp at h
  | crash => simp at h
  | diverge => simp at h

/-- Raising the fuel of a skip-to-semicolon run that did not exhaust its
budget does not change its outcome. -/
theorem skip_to_semicolon_mono :
    ∀ (n : Nat) (p : Parser), skip_to_semicolon n p ≠ PRes.diverge →
      skip_to_semicolon (n + 1) p = skip_to_semicolon n p := by
  intro n
  induction n with
  | zero => intro p h; exact absurd rfl h
  | succ m ih =>
    intro p h
    by_cases hc : p.current_token_is Token.Semicolon = true
    · simp [skip_to_semicolon, hc]
    · simp only [skip_to_semicolon, hc, Bool.false_eq_true, if_false] at h ⊢
      cases hnx : p.next_token with
      | none => simp [hnx, liftOpt]
      | some p2 =>
        simp only [hnx, liftOpt, PRes.bind_ok] at h ⊢
        exact ih p2 h

/-- Raising the fuel of a non-exhausted `parse_let_statement` run does
not change its outcome. -/
theorem parse_let_statement_mono (n : Nat) (p : Parser)
    (h : parse_let_statement n p ≠ PRes.diverge) :
    parse_let_statement (n + 1) p = parse_let_statement n p := by
  unfold parse_let_statement at h ⊢
  cases hnx : p.next_token with
  | none => simp [hnx, liftOpt]
  | some p1 =>
    simp only [hnx, liftOpt, PRes.bind_ok] at h ⊢
    cases hid : read_identifier p1 with
    | ok s =>
      simp only [hid, PRes.bind_ok] at h ⊢
      cases hep : expect_peek p1 Token.Assign with
      | ok p2 =>
        simp only [hep, PRes.bind_ok] at h ⊢
        cases hnx2 : p2.next_token with
        | none => simp [hnx2, liftOpt]
        | some p3 =>
          simp only [hnx2, liftOpt, PRes.bind_ok] at h ⊢
          have hs : skip_to_semicolon n p3 ≠ PRes.diverge := by
            intro hd; rw [hd] at h; simp at h
          rw [skip_to_semicolon_mono n p3 hs]
      | err e => simp [hep]
      | crash => simp [hep]
      | diverge => rw [hep] at h; simp at h
    | err e => simp [hid]
    | crash => simp [hid]
    | diverge => rw [hid] at h; simp at h

/-- Raising the fuel of a non-exhausted `parse_return_statement` run does
not change its outcome. -/
theorem parse_return_statement_mono (n : Nat) (p : Parser)
    (h : parse_return_statement n p ≠ PRes.diverge) :
    parse_return_statement (n + 1) p = parse_return_statement n p := by
  unfold parse_return_statement at h ⊢
  have hs : skip_to_semicolon n p ≠ PRes.diverge := by
    intro hd; rw [hd] at h; simp at h
  rw [skip_to_semicolon_mono n p hs]

/-- Raising the fuel of a non-exhausted `parse_statement` run does not
change its outcome. -/
theorem parse_statement_mono (n : Nat) (p : Parser)
    (h : parse_statement n p ≠ PRes.diverge) :
    parse_statement (n + 1) p = parse_statement n p := by
  obtain ⟨lx, cur, pk⟩ := p
  cases cur <;> try rfl
  case Let =>
    have hl : parse_let_statement n ⟨lx, Token.Let, pk⟩ ≠ PRes.diverge := by
      intro hd
      apply h
      show PRes.bind (parse_let_statement n ⟨lx, Token.Let, pk⟩)
        (fun sp => PRes.ok (Statement.Let sp.1, sp.2)) = PRes.diverge
      rw [hd]
      rfl
    show PRes.bind (parse_let_statement (n + 1) ⟨lx, Token.Let, pk⟩)
        (fun sp => PRes.ok (Statement.Let sp.1, sp.2)) =
      PRes.bind (parse_let_statement n ⟨lx, Token.Let, pk⟩)
        (fun sp => PRes.ok (Statement.Let sp.1, sp.2))
    rw [parse_let_statement_mono n _ hl]
  case Return =>
    have hr : parse_return_statement n ⟨lx, Token.Return, pk⟩ ≠ PRes.diverge := by
      intro hd
      apply h
      show PRes.bind (parse_return_statement n ⟨lx, Token.Return, pk⟩)
        (fun sp => PRes.ok (Statement.Return sp.1, sp.2)) = PRes.diverge
      rw [hd]
      rfl
    show PRes.bind (parse_return_statement (n + 1) ⟨lx, Token.Return, pk⟩)
        (fun sp => PRes.ok (Statement.Return sp.1, sp.2)) =
      PRes.bind (parse_return_statement n ⟨lx, Token.Return, pk⟩)
        (fun sp => PRes.ok (Statement.Return sp.1, sp.2))
    rw [parse_return_statement_mono n _ hr]

/-- Raising the fuel of a non-exhausted `parse_program_loop` run does
not change its outcome. -/
theorem parse_program_loop_mono :
    ∀ (n : Nat) (p : Parser) (acc : List Statement),
      parse_program_loop n p acc ≠ PRes.diverge →
      parse_program_loop (n + 1) p acc = parse_program_loop n p acc := by
  intro n
  induction n with
  | zero => intro p acc h; exact absurd rfl h
  | succ m ih =>
    intro p acc h
    by_cases he : p.current_token = Token.EOF
    · simp [parse_program_loop, he]
    · have hs : parse_statement m p ≠ PRes.diverge := by
        intro hd
        apply h
        simp [parse_program_loop, he, hd]
      simp only [parse_program_loop, he, if_false] at h ⊢
      rw [parse_statement_mono m p hs]
      cases hps : parse_statement m p with
      | ok sp =>
        simp only [hps, PRes.bind_ok] at h ⊢
        cases hnx : sp.2.next_token with
        | none => simp [hnx, liftOpt]
        | some p2 =>
          simp only [hnx, liftOpt, PRes.bind_ok] at h ⊢
          exact ih p2 (acc ++ [sp.1]) h
      | err e => simp [hps]
      | crash => simp [hps]
      | diverge => exact absurd hps hs

/-- Any fuel at least as large as a sufficient one yields the same
`parse_program_loop` outcome. -/
theorem parse_program_loop_ge (m n : Nat) (p : Parser) (acc : List Statement)
    (hmn : m ≤ n) (h : parse_program_loop m p acc ≠ PRes.diverge) :
    parse_program_loop n p acc = parse_program_loop m p acc := by
  induction n, hmn using Nat.le_induction with
  | base => rfl
  | succ k hk ihk =>
    have hne : parse_program_loop k p acc ≠ PRes.diverge := by
      rw [ihk]; exact h
    rw [parse_program_loop_mono k p acc hne, ihk]

/-- Any fuel at least as large as a sufficient one yields the same
`parse_input` outcome. -/
theorem parse_input_ge (m n : Nat) (src : List Nat) (hmn : m ≤ n)
    (h : parse_input m src ≠ PRes.diverge) :
    parse_input n src = parse_input m src := by
  unfold parse_input at h ⊢
  cases hp : Parser.new (Lexer.new src) with
  | none => rfl
  | some p =>
    rw [hp] at h
    exact parse_program_loop_ge m n p [] hmn h

/-- Every successful `parse_let_statement` stores the fixed placeholder
expression as the let's value. -/
theorem parse_let_statement_value (n : Nat) (p : Parser) (ls : LetStatement)
    (p2 : Parser) (h : parse_let_statement n p = PRes.ok (ls, p2)) :
    ls.value = Expression.Identifier
      { token := Token.Int (byteStr "5"), value := byteStr "5" } := by
  unfold parse_let_statement at h
  obtain ⟨p1, _, h⟩ := PRes.bind_eq_ok h
  obtain ⟨s, _, h⟩ := PRes.bind_eq_ok h
  obtain ⟨q2, _, h⟩ := PRes.bind_eq_ok h
  obtain ⟨q3, _, h⟩ := PRes.bind_eq_ok h
  obtain ⟨q4, _, h⟩ := PRes.bind_eq_ok h
  injection h with h
  injection h with h1 h2
  rw [← h1]

/-- Every successful `parse_return_statement` stores the fixed
placeholder expression as the return value. -/
theorem parse_return_statement_value (n : Nat) (p : Parser) (rs : ReturnStatement)
    (p2 : Parser) (h : parse_return_statement n p = PRes.ok (rs, p2)) :
    rs.return_value = Expression.Identifier
      { token := Token.Int (byteStr "5"), value := byteStr "5" } := by
  unfold parse_return_statement at h
  obtain ⟨q1, _, h⟩ := PRes.bind_eq_ok h
  injection h with h
  injection h with h1 h2
  rw [← h1]

/-- Every statement produced by `parse_statement` carries the
placeholder value in its (skipped) expression slot. -/
theorem parse_statement_placeholder (n : Nat) (p : Parser) (s : Statement)
    (p2 : Parser) (h : parse_statement n p = PRes.ok (s, p2)) :
    has_placeholder_value s := by
  unfold parse_statement at h
  split at h
  · obtain ⟨sp, hsp, hk⟩ := PRes.bind_eq_ok h
    injection hk with hk'
    injection hk' with hs hp2
    constructor
    · intro ls hls
      rw [← hs] at hls
      injection hls with hl
      rw [← hl]
      exact parse_let_statement_value n _ sp.1 sp.2 hsp
    · intro rs hrs
      rw [← hs] at hrs
      simp at hrs
  · obtain ⟨sp, hsp, hk⟩ := PRes.bind_eq_ok h
    injection hk with hk'
    injection hk' with hs hp2
    constructor
    · intro ls hls
      rw [← hs] at hls
      simp at hls
    · intro rs hrs
      rw [← hs] at hrs
      injection hrs with hr
      rw [← hr]
      exact parse_return_statement_value n _ sp.1 sp.2 hsp
  · obtain ⟨sp, hsp, hk⟩ := PRes.bind_eq_ok h
    injection hk with hk'
    injection hk' with hs hp2
    constructor
    · intro ls hls
      rw [← hs] at hls
      simp at hls
    · intro rs hrs
      rw [← hs] at hrs
      simp at hrs

/-- Statements accumulated by the program loop all carry the placeholder
value. -/
theorem parse_program_loop_placeholder :
    ∀ (n : Nat) (p : Parser) (acc : List Statement) (prog : Program),
      parse_program_loop n p acc = PRes.ok prog →
      (∀ s ∈ acc, has_placeholder_value s) →
      ∀ s ∈ prog.statements, has_placeholder_value s := by
  intro n
  induction n with
  | zero => intro p acc prog h hacc; simp [parse_program_loop] at h
  | succ m ih =>
    intro p acc prog h hacc
    by_cases he : p.current_token = Token.EOF
    · simp only [parse_program_loop, he, if_true] at h
      injection h with h
      rw [← h]
      exact hacc
    · simp only [parse_program_loop, he, if_false] at h
      obtain ⟨sp, hsp, h⟩ := PRes.bind_eq_ok h
      obtain ⟨p2, hp2, h⟩ := PRes.bind_eq_ok h
      refine ih p2 (acc ++ [sp.1]) prog h ?_
      intro s hs
      rcases List.mem_append.mp hs with hs | hs
      · exact hacc s hs
      · rw [List.mem_singleton] at hs
        subst hs
        exact parse_statement_placeholder m p sp.1 sp.2 hsp

/-- C3: for every successfully parsed program, every `Let` statement's
stored value and every `Return` statement's return value is the fixed
placeholder `Identifier` with token `Int("5")` and text `"5"`, whatever
source text stood between `=`/`return` and `;`. -/
theorem c3_skipped_values_are_placeholder (src : List Nat) (n : Nat) (prog : Program)
    (h : parse_input n src = PRes.ok prog) :
    ∀ s ∈ prog.statements, has_placeholder_value s := by
  unfold parse_input at h
  cases hp : Parser.new (Lexer.new src) with
  | none => rw [hp] at h; exact PRes.noConfusion h
  | some p =>
    rw [hp] at h
    exact parse_program_loop_placeholder n p [] prog h (by intro s hs; simp at hs)

/-- Witness for C3 on the concrete parse of `"let x = 5;"`. -/
theorem c3_skipped_values_are_placeholder_witness :
    parse_input 50 (byteStr "let x = 5;") =
      PRes.ok { statements := [Statement.Let
        { token := Token.Let,
          name := { token := Token.Ident (byteStr "x"), value := byteStr "x" },
          value := Expression.Identifier
            { token := Token.Int (byteStr "5"), value := byteStr "5" } }] } ∧
    has_placeholder_value (Statement.Let
      { token := Token.Let,
        name := { token := Token.Ident (byteStr "x"), value := byteStr "x" },
        value := Expression.Identifier
          { token := Token.Int (byteStr "5"), value := byteStr "5" } }) :=
  ⟨rfl,
   c3_skipped_values_are_placeholder (byteStr "let x = 5;") 50 _ rfl _
     (List.mem_singleton_self _)⟩

/-- C4: parsing `"let x = 5;\nlet y = 10;\nlet foobar = 838383;"` (with
any sufficient step budget) succeeds with exactly three `Let` statements
whose names are `x`, `y`, `foobar` in source order (each value slot
holding the placeholder the parser always stores). -/
theorem c4_three_let_statements (n : Nat) (h : 50 ≤ n) :
    parse_input n (byteStr "let x = 5;\nlet y = 10;\nlet foobar = 838383;") =
      PRes.ok { statements := [
        Statement.Let
          { token := Token.Let,
            name := { token := Token.Ident (byteStr "x"), value := byteStr "x" },
            value := Expression.Identifier
              { token := Token.Int (byteStr "5"), value := byteStr "5" } },
        Statement.Let
          { token := Token.Let,
            name := { token := Token.Ident (byteStr "y"), value := byteStr "y" },
            value := Expression.Identifier
              { token := Token.Int (byteStr "5"), value := byteStr "5" } },
        Statement.Let
          { token := Token.Let,
            name := { token := Token.Ident (byteStr "foobar"), value := byteStr "foobar" },
            value := Expression.Identifier
              { token := Token.Int (byteStr "5"), value := byteStr "5" } }] } := by
  rw [parse_input_ge 50 n _ h (by decide)]
  rfl

/-- Witness for C4 at the minimal sufficient budget. -/
theorem c4_three_let_statements_witness :
    parse_input 50 (byteStr "let x = 5;\nlet y = 10;\nlet foobar = 838383;") =
      PRes.ok { statements := [
        Statement.Let
          { token := Token.Let,
            name := { token := Token.Ident (byteStr "x"), value := byteStr "x" },
            value := Expression.Identifier
              { token := Token.Int (byteStr "5"), value := byteStr "5" } },
        Statement.Let
          { token := Token.Let,
            name := { token := Token.Ident (byteStr "y"), value := byteStr "y" },
            value := Expression.Identifier
              { token := Token.Int (byteStr "5"), value := byteStr "5" } },
        Statement.Let
          { token := Token.Let,
            name := { token := Token.Ident (byteStr "foobar"), value := byteStr "foobar" },
            value := Expression.Identifier
              { token := Token.Int (byteStr "5"), value := byteStr "5" } }] } :=
  c4_three_let_statements 50 (Nat.le_refl 50)

/-- C5: parsing `"let x 5;"` (missing `=`) fails, for any sufficient
step budget, with `UnexpectedToken` wanting `"="` and finding `"5"`. -/
theorem c5_missing_assign_unexpected_token (n : Nat) (h : 1 ≤ n) :
    parse_input n (byteStr "let x 5;") =
      PRes.err (ParserError.UnexpectedToken (byteStr "=") (byteStr "5")) := by
  rw [parse_input_ge 1 n _ h (by decide)]
  rfl

/-- Witness for C5 at the minimal sufficient budget. -/
theorem c5_missing_assign_unexpected_token_witness :
    parse_input 1 (byteStr "let x 5;") =
      PRes.err (ParserError.UnexpectedToken (byteStr "=") (byteStr "5")) :=
  c5_missing_assign_unexpected_token 1 (Nat.le_refl 1)

/-- C7: parsing `"foobar"` alone succeeds, for any sufficient step
budget, with exactly one expression statement, and that statement
renders back to the text `"foobar"`. -/
theorem c7_identifier_expression_statement (n : Nat) (h : 2 ≤ n) :
    parse_input n (byteStr "foobar") =
      PRes.ok { statements := [
        Statement.Expression
          { token := Token.Ident (byteStr "foobar"),
            expression := Expression.Identifier
              { token := Token.Ident (byteStr "foobar"), value := byteStr "foobar" } }] } ∧
    ExpressionStatement.render
      { token := Token.Ident (byteStr "foobar"),
        expression := Expression.Identifier
          { token := Token.Ident (byteStr "foobar"), value := byteStr "foobar" } } =
      byteStr "foobar" := by
  constructor
  · rw [parse_input_ge 2 n _ h (by decide)]
    rfl
  · rfl

/-- Witness for C7 at the minimal sufficient budget. -/
theorem c7_identifier_expression_statement_witness :
    parse_input 2 (byteStr "foobar") =
      PRes.ok { statements := [
        Statement.Expression
          { token := Token.Ident (byteStr "foobar"),
            expression := Expression.Identifier
              { token := Token.Ident (byteStr "foobar"), value := byteStr "foobar" } }] } ∧
    ExpressionStatement.render
      { token := Token.Ident (byteStr "foobar"),
        expression := Expression.Identifier
          { token := Token.Ident (byteStr "foobar"), value := byteStr "foobar" } } =
      byteStr "foobar" :=
  c7_identifier_expression_statement 2 (Nat.le_refl 2)

/-- C8: whenever the statement at the parser's current position fails,
`parse_program` (and its loop, whatever statements it has already
accumulated) returns exactly that `ParserError`: the first statement
error aborts the whole parse, discarding every already-parsed statement
rather than returning a partial program. -/
theorem c8_first_statement_error_aborts (n : Nat) (p : Parser) (acc : List Statement)
    (e : ParserError) (hne : p.current_token ≠ Token.EOF)
    (herr : parse_statement n p = PRes.err e) :
    parse_program_loop (n + 1) p acc = PRes.err e ∧
      parse_program (n + 1) p = PRes.err e := by
  constructor
  · simp [parse_program_loop, hne, herr]
  · simp [parse_program, parse_program_loop, hne, herr]

/-- Witness for C8 at a concrete parser state whose current statement
fails with `MissingIdentifier`, with one already-parsed statement in the
accumulator. -/
theorem c8_first_statement_error_aborts_witness :
    parse_program_loop 2
        { lexer := Lexer.new (byteStr ""), current_token := Token.Let,
          peek_token := Token.Int (byteStr "7") }
        [Statement.Return
          { token := Token.Return,
            return_value := Expression.Identifier
              { token := Token.Int (byteStr "5"), value := byteStr "5" } }] =
      PRes.err (ParserError.MissingIdentifier (Token.Int (byteStr "7"))) ∧
    parse_program 2
        { lexer := Lexer.new (byteStr ""), current_token := Token.Let,
          peek_token := Token.Int (byteStr "7") } =
      PRes.err (ParserError.MissingIdentifier (Token.Int (byteStr "7"))) :=
  c8_first_statement_error_aborts 1
    { lexer := Lexer.new (byteStr ""), current_token := Token.Let,
      peek_token := Token.Int (byteStr "7") }
    [Statement.Return
      { token := Token.Return,
        return_value := Expression.Identifier
          { token := Token.Int (byteStr "5"), value := byteStr "5" } }]
    (ParserError.MissingIdentifier (Token.Int (byteStr "7")))
    (by decide) rfl

/-- C10: for a successfully parsed expression statement (current token
an identifier), the node's `token` field is the `Semicolon` token — the
current token after the optional trailing `;` is consumed — whenever
that trailing semicolon is present, and it is the expression's leading
token exactly when no trailing semicolon follows. -/
theorem c10_expression_statement_token_field (p : Parser) (s : List Nat)
    (hc : p.current_token = Token.Ident s) :
    (p.peek_token ≠ Token.Semicolon →
      parse_expression_statement p =
        PRes.ok ({ token := Token.Ident s,
                   expression := Expression.Identifier
                     { token := Token.Ident s, value := s } }, p)) ∧
    (∀ p2, p.peek_token = Token.Semicolon → p.next_token = some p2 →
      parse_expression_statement p =
        PRes.ok ({ token := Token.Semicolon,
                   expression := Expression.Identifier
                     { token := Token.Ident s, value := s } }, p2)) := by
  constructor
  · intro hpk
    have hb : p.peek_token_is Token.Semicolon = false := by
      simp [Parser.peek_token_is, hpk]
    simp [parse_expression_statement, parse_expression, parse_prefix_expression, hc,
      parse_identifier, token_literal, hb]
  · intro p2 hpk hnx
    have hb : p.peek_token_is Token.Semicolon = true := by
      simp [Parser.peek_token_is, hpk]
    have hcur2 : p2.current_token = Token.Semicolon := by
      unfold Parser.next_token at hnx
      cases hlx : p.lexer.next_token with
      | none => rw [hlx] at hnx; cases hnx
      | some tl => rw [hlx] at hnx; injection hnx with h2; rw [← h2]; simp [hpk]
    simp [parse_expression_statement, parse_expression, parse_prefix_expression, hc,
      parse_identifier, token_literal, hb, hnx, liftOpt, hcur2]

/-- Witness for C10 at two concrete parser states, one without and one
with a trailing semicolon. -/
theorem c10_expression_statement_token_field_witness :
    parse_expression_statement
        { lexer := Lexer.new (byteStr ""), current_token := Token.Ident (byteStr "a"),
          peek_token := Token.EOF } =
      PRes.ok ({ token := Token.Ident (byteStr "a"),
                 expression := Expression.Identifier
                   { token := Token.Ident (byteStr "a"), value := byteStr "a" } },
        { lexer := Lexer.new (byteStr ""), current_token := Token.Ident (byteStr "a"),
          peek_token := Token.EOF }) ∧
    parse_expression_statement
        { lexer := Lexer.new (byteStr ""), current_token := Token.Ident (byteStr "a"),
          peek_token := Token.Semicolon } =
      PRes.ok ({ token := Token.Semicolon,
                 expression := Expression.Identifier
                   { token := Token.Ident (byteStr "a"), value := byteStr "a" } },
        { lexer := { input := byteStr "", position := 1, read_position := 2, ch := 0 },
          current_token := Token.Semicolon, peek_token := Token.EOF }) :=
  ⟨(c10_expression_statement_token_field
      { lexer := Lexer.new (byteStr ""), current_token := Token.Ident (byteStr "a"),
        peek_token := Token.EOF } (byteStr "a") rfl).1 (by decide),
   (c10_expression_statement_token_field
      { lexer := Lexer.new (byteStr ""), current_token := Token.Ident (byteStr "a"),
        peek_token := Token.Semicolon } (byteStr "a") rfl).2
     { lexer := { input := byteStr "", position := 1, read_position := 2, ch := 0 },
       current_token := Token.Semicolon, peek_token := Token.EOF } rfl rfl⟩
